import Mathlib

/-!
Verification development for the leaf-lesion repository (scripts/analysis.py,
version 0.2.1).

The script is a batch image-analysis pipeline.  Its pure image-processing
part (`analyse_image` and the local `threshold_abs` transformation) is
embedded in Part A below; the pixel-level library primitives it delegates to
(jicbioimage / skimage: gaussian smoothing, binary morphology,
connected-component labeling, convex hull, canvas annotation) are modelled
as abstract operations collected in an `ImagingLib` structure, while the
code that lives in the repository itself is translated concretely.
`analyse_image` is instrumented with a trace of the operations it performs,
so that statements about the order and the parameters of the pipeline steps
can be made for every input image.

Part B embeds the filesystem-facing glue (`safe_mkdir`, `item_output_path`,
`get_microscopy_collection`, `analyse_file`, `analyse_dataset`, `main`)
over a small operating-system model: a state holding the set of existing
directories plus the global AutoName counter, an event trace recording the
externally visible effects (directory creation, file writes, log records),
and an oracle that may inject an `OSError` into `os.makedirs`, which is the
one operation the script guards with a try/except.
-/

namespace LeafLesion

/-- Grayscale image: rows of rational pixel values (models a numpy float
array; rationals stand in for the float values flowing through the
pipeline). -/
abbrev Image := List (List ℚ)

/-- Binary image produced by thresholding and binary morphology. -/
abbrev BinImage := List (List Bool)

/-- An RGB colour triple. -/
abbrev Color := ℕ × ℕ × ℕ

/-- Annotated canvas (`AnnotatedImage`): rows of RGB pixels. -/
abbrev Canvas := List (List Color)

/-- Result of `connected_components`: the set of identifiers of the labeled
components together with the region mask of each identifier. -/
structure Segmentation where
  identifiers : List ℕ
  region_by_identifier : ℕ → BinImage

/-- The library primitives `analyse_image` delegates to.  These live in
jicbioimage / skimage, outside the repository, so they are kept abstract:
any implementation of this structure gives a meaning to the pipeline. -/
structure ImagingLib where
  normalise : Image → Image
  from_grayscale : Image → Canvas
  smooth_gaussian : Image → ℚ → Image
  erode_binary : BinImage → BinImage
  remove_small_objects : BinImage → ℕ → BinImage
  disk : ℕ → BinImage
  dilate_binary : BinImage → BinImage → BinImage
  connected_components : BinImage → ℤ → Segmentation
  convex_hull : BinImage → BinImage
  inner : BinImage → BinImage
  border : BinImage → BinImage
  region_dilate : BinImage → BinImage
  pretty_color_from_identifier : ℕ → Color
  mask_region : Canvas → BinImage → Color → Canvas

/-- One step of the `analyse_image` pipeline, recorded in the trace with the
parameters the source passes at the corresponding call site. -/
inductive Op where
  | normaliseScale (factor : ℚ)
  | fromGrayscale
  | smoothGaussian (sigma : ℚ)
  | thresholdAbs (cutoff : ℚ)
  | erodeBinary
  | removeSmallObjects (min_size : ℕ)
  | dilateBinaryDisk (radius : ℕ)
  | connectedComponents (background : ℤ)
  | maskRegion (identifier : ℕ)
  deriving DecidableEq

/-- Elementwise scalar multiplication, the numpy expression `image * c`. -/
def scalar_mul (c : ℚ) (image : Image) : Image :=
  image.map (fun row => row.map (fun v => v * c))

/-- The `threshold_abs` transformation of the source: the numpy comparison
`image > cutoff`, elementwise.  A pixel of the output is set exactly when
the input pixel is strictly greater than the cutoff. -/
def threshold_abs (image : Image) (cutoff : ℚ) : BinImage :=
  image.map (fun row => row.map (fun v => decide (cutoff < v)))

/-- Optional pixel access for grayscale images. -/
def px (image : Image) (i j : ℕ) : Option ℚ :=
  image[i]?.bind (fun row => row[j]?)

/-- Optional pixel access for binary images. -/
def bpx (image : BinImage) (i j : ℕ) : Option Bool :=
  image[i]?.bind (fun row => row[j]?)

/-- The outline computed in the loop body of `analyse_image`:
`region.convex_hull.inner.border.dilate()`. -/
def outline_of (lib : ImagingLib) (seg : Segmentation) (i : ℕ) : BinImage :=
  lib.region_dilate (lib.border (lib.inner (lib.convex_hull (seg.region_by_identifier i))))

/-- The body of the `for i in segmentation.identifiers` loop of
`analyse_image`: mask the outline of component `i` onto the canvas with the
colour derived from the identifier, and record the step in the trace. -/
def mask_step (lib : ImagingLib) (seg : Segmentation) (acc : Canvas × List Op) (i : ℕ) :
    Canvas × List Op :=
  (lib.mask_region acc.1 (outline_of lib seg i) (lib.pretty_color_from_identifier i),
   acc.2 ++ [Op.maskRegion i])

/-- `analyse_image` from the source, instrumented with an operation trace.
Each line mirrors one statement of the Python function; the trace records
the operation performed by that line together with its parameters.
`image.astype(float)` is the identity in this model since pixels are
already rationals. -/
def analyse_image (lib : ImagingLib) (image0 : Image) : Canvas × List Op :=
  let image := scalar_mul 255 (lib.normalise image0)
  let t1 : List Op := [Op.normaliseScale 255]
  let canvas := lib.from_grayscale image
  let t2 := t1 ++ [Op.fromGrayscale]
  let image1 := lib.smooth_gaussian image 5
  let t3 := t2 ++ [Op.smoothGaussian 5]
  let image2 := threshold_abs image1 30
  let t4 := t3 ++ [Op.thresholdAbs 30]
  let image3 := lib.erode_binary image2
  let t5 := t4 ++ [Op.erodeBinary]
  let image4 := lib.remove_small_objects image3 5
  let t6 := t5 ++ [Op.removeSmallObjects 5]
  let salem := lib.disk 2
  let image5 := lib.dilate_binary image4 salem
  let t7 := t6 ++ [Op.dilateBinaryDisk 2]
  let segmentation := lib.connected_components image5 0
  let t8 := t7 ++ [Op.connectedComponents 0]
  segmentation.identifiers.foldl (mask_step lib segmentation) (canvas, t8)

/-- The fixed pipeline of `analyse_image` before the outlining loop, as a
list of operations with their parameters. -/
def fixed_pipeline : List Op :=
  [Op.normaliseScale 255, Op.fromGrayscale, Op.smoothGaussian 5, Op.thresholdAbs 30,
   Op.erodeBinary, Op.removeSmallObjects 5, Op.dilateBinaryDisk 2,
   Op.connectedComponents 0]

/-- The identifier recorded by a `maskRegion` step, if any. -/
def mask_id : Op → Option ℕ
  | Op.maskRegion i => some i
  | _ => none

theorem filterMap_mask_id (ids : List ℕ) :
    (fixed_pipeline ++ ids.map Op.maskRegion).filterMap mask_id = ids := by
  rw [List.filterMap_append, List.filterMap_map]
  have h1 : fixed_pipeline.filterMap mask_id = [] := rfl
  have h2 : mask_id ∘ Op.maskRegion = some := rfl
  rw [h1, h2, List.filterMap_some, List.nil_append]

theorem foldl_mask_step_snd (lib : ImagingLib) (seg : Segmentation) (ids : List ℕ)
    (acc : Canvas × List Op) :
    (ids.foldl (mask_step lib seg) acc).2 = acc.2 ++ ids.map Op.maskRegion := by
  induction ids generalizing acc with
  | nil => simp
  | cons i ids ih =>
    simp [List.foldl_cons, ih, mask_step, List.append_assoc]

theorem foldl_mask_step_fst (lib : ImagingLib) (seg : Segmentation) (ids : List ℕ)
    (acc : Canvas × List Op) :
    (ids.foldl (mask_step lib seg) acc).1 =
      ids.foldl (fun c i => lib.mask_region c (outline_of lib seg i)
        (lib.pretty_color_from_identifier i)) acc.1 := by
  induction ids generalizing acc with
  | nil => rfl
  | cons i ids ih =>
    simp [List.foldl_cons, ih, mask_step]

theorem analyse_image_snd (lib : ImagingLib) (image : Image) :
    (analyse_image lib image).2 = fixed_pipeline ++
      (lib.connected_components
        (lib.dilate_binary
          (lib.remove_small_objects
            (lib.erode_binary
              (threshold_abs (lib.smooth_gaussian (scalar_mul 255 (lib.normalise image)) 5) 30))
            5)
          (lib.disk 2)) 0).identifiers.map Op.maskRegion := by
  simp [analyse_image, foldl_mask_step_snd, fixed_pipeline]

/-- Claim C1: for every input image, `analyse_image` applies exactly the
fixed-parameter sequence normalise-and-scale-by-255, Gaussian smoothing with
sigma 5, absolute thresholding with cutoff 30, binary erosion, removal of
objects smaller than 5 pixels, binary dilation with a disk structuring
element of radius 2, then connected-component labeling with background 0,
in this order, followed only by the per-component outlining steps; the
sequence is the same for every image and every library implementation, so
no step is repeated, skipped, or parameterised by the caller. -/
theorem analyse_image_fixed_pipeline (lib : ImagingLib) (image : Image) :
    ∃ ids : List ℕ, (analyse_image lib image).2 =
      [Op.normaliseScale 255, Op.fromGrayscale, Op.smoothGaussian 5, Op.thresholdAbs 30,
       Op.erodeBinary, Op.removeSmallObjects 5, Op.dilateBinaryDisk 2,
       Op.connectedComponents 0] ++ ids.map Op.maskRegion :=
  ⟨_, analyse_image_snd lib image⟩

/-- Claim C5: the thresholding step is absolute.  A pixel of
`threshold_abs image cutoff` is set exactly when the corresponding input
pixel is strictly greater than the cutoff, and `analyse_image` invokes the
thresholding with cutoff 30 directly after the sigma-5 Gaussian smoothing
step. -/
theorem threshold_abs_strictly_greater :
    (∀ (image : Image) (cutoff : ℚ) (i j : ℕ),
      bpx (threshold_abs image cutoff) i j = some true ↔
        ∃ v, px image i j = some v ∧ cutoff < v) ∧
    (∀ (lib : ImagingLib) (image : Image),
      (analyse_image lib image).2[2]? = some (Op.smoothGaussian 5) ∧
      (analyse_image lib image).2[3]? = some (Op.thresholdAbs 30)) := by
  constructor
  · intro image cutoff i j
    simp only [bpx, px, threshold_abs, List.getElem?_map]
    cases himg : image[i]? with
    | none => simp
    | some row =>
      cases hrow : row[j]? with
      | none => simp [List.getElem?_map, hrow]
      | some v => simp [List.getElem?_map, hrow, decide_eq_true_iff]
  · intro lib image
    rw [analyse_image_snd]
    exact ⟨rfl, rfl⟩

/-- Claim C6: `analyse_image` outlines every connected component of the
segmentation: the final canvas is the initial canvas with, for each
identifier of the segmentation in turn, the region
`region.convex_hull.inner.border.dilate()` masked on in the colour derived
from that identifier; the trace records exactly one `maskRegion` step per
identifier. -/
theorem analyse_image_outlines_components (lib : ImagingLib) (image : Image) :
    ∃ (seg : Segmentation) (canvas0 : Canvas),
      (analyse_image lib image).1 = seg.identifiers.foldl
        (fun c i => lib.mask_region c
          (lib.region_dilate (lib.border (lib.inner (lib.convex_hull
            (seg.region_by_identifier i)))))
          (lib.pretty_color_from_identifier i)) canvas0 ∧
      (analyse_image lib image).2.filterMap mask_id = seg.identifiers := by
  refine ⟨lib.connected_components
      (lib.dilate_binary
        (lib.remove_small_objects
          (lib.erode_binary
            (threshold_abs (lib.smooth_gaussian (scalar_mul 255 (lib.normalise image)) 5) 30))
          5)
        (lib.disk 2)) 0,
    lib.from_grayscale (scalar_mul 255 (lib.normalise image)), ?_, ?_⟩
  · simp only [analyse_image, foldl_mask_step_fst, outline_of]
  · rw [analyse_image_snd, filterMap_mask_id]

/-- Claim C7: the pipeline is deterministic: running `analyse_image` on
equal input images yields equal results (in particular equal annotated
canvases); the computation is a pure function of the input image. -/
theorem analyse_image_deterministic (lib : ImagingLib) (i1 i2 : Image) (h : i1 = i2) :
    analyse_image lib i1 = analyse_image lib i2 := by
  rw [h]

/-- A trivial concrete implementation of the library primitives, used to
exercise the theorems on closed inputs. -/
def trivLib : ImagingLib where
  normalise := id
  from_grayscale := fun _ => []
  smooth_gaussian := fun i _ => i
  erode_binary := id
  remove_small_objects := fun b _ => b
  disk := fun _ => []
  dilate_binary := fun b _ => b
  connected_components := fun _ _ => ⟨[1], fun _ => [[true]]⟩
  convex_hull := id
  inner := id
  border := id
  region_dilate := id
  pretty_color_from_identifier := fun _ => (255, 0, 0)
  mask_region := fun c _ _ => c

theorem analyse_image_deterministic_witness :
    analyse_image trivLib [[(1 : ℚ)]] = analyse_image trivLib [[(1 : ℚ)]] :=
  analyse_image_deterministic trivLib [[(1 : ℚ)]] [[(1 : ℚ)]] rfl

/-! ## Part B: the filesystem-facing glue

Paths are lists of components; `os.path.join` with the relative second
arguments used by the script is concatenation.  The operating-system state
`St` holds the set of existing directories plus the global `AutoName.count`
step counter; externally visible effects are recorded as events.  The only
fallible primitive is `os.makedirs` (the one operation the script guards
with a try/except); an oracle can inject an arbitrary `OSError` into it,
modelling OS-level failures such as permission errors or a file already
occupying the path. -/

/-- A filesystem path, as a list of components. -/
abbrev Path := List String

/-- Rendering of a path for log and error messages. -/
def path_str (p : Path) : String := String.intercalate "/" p

/-- An `OSError`, identified by its errno. -/
structure OSErr where
  errno : ℕ
  deriving DecidableEq

/-- `errno.EEXIST`. -/
def EEXIST : ℕ := 17

/-- Operating-system state: the existing directories and the global
`AutoName.count` step counter of jicbioimage. -/
structure St where
  dirs : List Path
  count : ℕ
  deriving DecidableEq

/-- `os.path.isdir`. -/
def isdir (p : Path) (st : St) : Bool := decide (p ∈ st.dirs)

/-- Externally visible effects of a run. -/
inductive Ev where
  | mkdirEv (p : Path)
  | makedirsEv (p : Path)
  | backendInit (p : Path)
  | loadCollection (p : Path)
  | logInfo (msg : String)
  | openLogFile (p : Path)
  | writeBytes (p : Path)
  | interWrite (p : Path)
  deriving DecidableEq

/-- Failure oracle for `os.makedirs`: `fail p = some e` makes the call on
`p` raise `OSError` `e` (a permission error, a file occupying the path,
and so on). -/
structure OSOracle where
  fail : Path → Option OSErr

/-- The oracle that injects no failure. -/
def ok_os : OSOracle := ⟨fun _ => none⟩

/-- `os.makedirs`: fails with the injected error if the oracle provides
one, fails with `EEXIST` if the directory already exists, and otherwise
creates the directory. -/
def makedirs (os : OSOracle) (p : Path) (st : St) : Except OSErr (St × List Ev) :=
  match os.fail p with
  | some e => .error e
  | none =>
    if p ∈ st.dirs then .error ⟨EEXIST⟩
    else .ok (⟨p :: st.dirs, st.count⟩, [Ev.makedirsEv p])

/-- `safe_mkdir` from the source: call `os.makedirs` and swallow exactly an
`OSError` whose errno is `EEXIST` when the path is an existing directory;
every other `OSError` is re-raised unchanged. -/
def safe_mkdir (os : OSOracle) (directory : Path) (st : St) : Except OSErr (St × List Ev) :=
  match makedirs os directory st with
  | .ok r => .ok r
  | .error exc =>
    if exc.errno = EEXIST ∧ isdir directory st = true then .ok (st, [])
    else .error exc

/-- `item_output_path` from the source: join the output directory with the
item's relative path, create it if it does not already exist, return it. -/
def item_output_path (os : OSOracle) (output_directory rel_path : Path) (st : St) :
    Except OSErr (Path × St × List Ev) :=
  let abs_path := output_directory ++ rel_path
  match safe_mkdir os abs_path st with
  | .error e => .error e
  | .ok (st1, evs) => .ok (abs_path, st1, evs)

/-- `os.mkdir`, used only behind an `isdir` guard in the script, modelled as
always succeeding. -/
def mkdir (p : Path) (st : St) : St × List Ev :=
  (⟨p :: st.dirs, st.count⟩, [Ev.mkdirEv p])

/-- The hardcoded `data_dir` of `get_microscopy_collection`. -/
def data_dir : Path := ["output"]

/-- The hardcoded file-backend cache directory:
`os.path.join("output", ".backend")`. -/
def backend_dir : Path := data_dir ++ [".backend"]

/-- A loaded microscopy collection: its series and their images. -/
structure Collection where
  series : List ℕ
  image : ℕ → Image

/-- A `dtoolcore` dataset: its name, item identifiers, and per-item content
path and `relpath` property. -/
structure DataSet where
  name : String
  identifiers : List ℕ
  item_content_abspath : ℕ → Path
  item_relpath : ℕ → Path

/-- The external data sources: what `DataManager.load` and
`DataSet.from_uri` return for each path. -/
structure World where
  load : Path → Collection
  dataset : Path → DataSet

/-- `get_microscopy_collection` from the source: create the hardcoded
`output` directory (relative to the working directory) if absent, construct
a `FileBackend` on `output/.backend`, and load the input file through a
`DataManager`. -/
def get_microscopy_collection (world : World) (input_file : Path) (st : St) :
    Collection × St × List Ev :=
  let r1 := if isdir data_dir st then (st, ([] : List Ev)) else mkdir data_dir st
  (world.load input_file, r1.1,
   r1.2 ++ [Ev.backendInit backend_dir, Ev.loadCollection input_file])

/-- The Python format spec `03d`: decimal, zero-padded to width three. -/
def zero_pad3 (n : ℕ) : String :=
  let s := toString n
  if s.length < 3 then String.mk (List.replicate (3 - s.length) '0') ++ s else s

/-- `AutoName.prefix_format`: the three-digit zero-padded step counter
followed by an underscore, prepended to intermediate image names. -/
def counter_fmt (n : ℕ) : String := zero_pad3 n ++ "_"

/-- Function names used by AutoName for the intermediate image written by
each wrapped transformation. -/
def op_name : Op → String
  | Op.smoothGaussian _ => "smooth_gaussian"
  | Op.thresholdAbs _ => "threshold_abs"
  | Op.erodeBinary => "erode_binary"
  | Op.removeSmallObjects _ => "remove_small_objects"
  | Op.dilateBinaryDisk _ => "dilate_binary"
  | Op.connectedComponents _ => "connected_components"
  | _ => ""

/-- Whether a pipeline step is a wrapped transformation, i.e. one that the
jicbioimage transformation decorator surrounds and that therefore writes an
intermediate image when `AutoWrite.on` holds. -/
def is_transform_op : Op → Bool
  | Op.smoothGaussian _ => true
  | Op.thresholdAbs _ => true
  | Op.erodeBinary => true
  | Op.removeSmallObjects _ => true
  | Op.dilateBinaryDisk _ => true
  | Op.connectedComponents _ => true
  | _ => false

/-- Models the jicbioimage transformation decorator with `AutoWrite.on`:
each wrapped step writes an intermediate image into `AutoName.directory`,
named by the step counter prefix followed by the function name, and bumps
the counter. -/
def inter_events (dir : Path) : ℕ → List Op → List Ev × ℕ
  | c, [] => ([], c)
  | c, op :: ops =>
    if is_transform_op op then
      let r := inter_events dir (c + 1) ops
      (Ev.interWrite (dir ++ [counter_fmt c ++ op_name op ++ ".png"]) :: r.1, r.2)
    else inter_events dir c ops

/-- The annotation file name written for series `s`:
`series_` followed by `s` zero-padded to three digits and
`_annotation.png`. -/
def series_png_name (s : ℕ) : String :=
  "series_" ++ zero_pad3 s ++ "_annotation.png"

/-- The `for s in microscopy_collection.series` loop of `analyse_file`:
analyse the image of each series and write the annotated PNG into the
output directory; in debug mode the wrapped transformations also write
their intermediate images. -/
def analyse_series (lib : ImagingLib) (col : Collection) (auto_write : Bool)
    (outdir : Path) : List ℕ → St → St × List Ev
  | [], st => (st, [])
  | s :: rest, st =>
    let ops := (analyse_image lib (col.image s)).2
    let r := if auto_write then inter_events outdir st.count ops else ([], st.count)
    let st1 : St := ⟨st.dirs, r.2⟩
    let r2 := analyse_series lib col auto_write outdir rest st1
    (r2.1, r.1 ++ [Ev.writeBytes (outdir ++ [series_png_name s])] ++ r2.2)

/-- `analyse_file` from the source: log the file, set `AutoName.directory`
to the output directory, load the microscopy collection, and process every
series. -/
def analyse_file (lib : ImagingLib) (world : World) (auto_write : Bool)
    (fpath output_directory : Path) (st : St) : St × List Ev :=
  match get_microscopy_collection world fpath st with
  | (col, st1, ev1) =>
    let r2 := analyse_series lib col auto_write output_directory col.series st1
    (r2.1, Ev.logInfo ("Analysing file: " ++ path_str fpath) :: (ev1 ++ r2.2))

/-- The `for i in dataset.identifiers` loop of `analyse_dataset`: for each
item, create its output directory via `item_output_path` and analyse its
file there. -/
def analyse_items (os : OSOracle) (lib : ImagingLib) (world : World) (auto_write : Bool)
    (ds : DataSet) (output_dir : Path) : List ℕ → St → Except OSErr (St × List Ev)
  | [], st => .ok (st, [])
  | i :: rest, st =>
    match item_output_path os output_dir (ds.item_relpath i) st with
    | .error e => .error e
    | .ok (specific_dir, st1, ev1) =>
      let r2 := analyse_file lib world auto_write (ds.item_content_abspath i) specific_dir st1
      match analyse_items os lib world auto_write ds output_dir rest r2.1 with
      | .error e => .error e
      | .ok (st3, ev3) => .ok (st3, ev1 ++ r2.2 ++ ev3)

/-- `analyse_dataset` from the source: load the dataset from its directory,
log its name, and analyse every item. -/
def analyse_dataset (os : OSOracle) (lib : ImagingLib) (world : World) (auto_write : Bool)
    (dataset_dir output_dir : Path) (st : St) : Except OSErr (St × List Ev) :=
  let ds := world.dataset dataset_dir
  match analyse_items os lib world auto_write ds output_dir ds.identifiers st with
  | .error e => .error e
  | .ok (st1, evs) =>
    .ok (st1, Ev.logInfo ("Analysing items in dataset: " ++ ds.name) :: evs)

/-- How `main` ends: normal completion, or the argparse error raised when
the input dataset argument is not a directory. -/
inductive MainOut where
  | completed
  | parserError (msg : String)
  deriving DecidableEq

/-- The observable outcome of a successful `main` run: how it ended, the
configuration it set (`AutoWrite.on` and the logging level), the final
state, and the event trace. -/
structure MainResult where
  outcome : MainOut
  auto_write_on : Bool
  log_level : ℕ
  st : St
  events : List Ev

/-- `logging.INFO`. -/
def INFO_LEVEL : ℕ := 20

/-- `logging.DEBUG`. -/
def DEBUG_LEVEL : ℕ := 10

/-- The script's `__version__`. -/
def version : String := "0.2.1"

/-- `main` from the source: create the output directory if it is not
already a directory, set `AutoWrite.on` to the debug flag, configure
logging into `audit.log` inside the output directory (which creates the
file), log the script name and version, and then either analyse the input
dataset if it is a directory or end with the argparse error. -/
def main (os : OSOracle) (lib : ImagingLib) (world : World)
    (input_dataset output_dir : Path) (debug : Bool) (st : St) :
    Except OSErr MainResult :=
  let r1 := if isdir output_dir st then (st, ([] : List Ev)) else mkdir output_dir st
  let st1 := r1.1
  let auto_write := debug
  let log_fpath := output_dir ++ ["audit.log"]
  let level := if debug then DEBUG_LEVEL else INFO_LEVEL
  let ev_pre := r1.2 ++ [Ev.openLogFile log_fpath,
    Ev.logInfo "Script name: analysis.py",
    Ev.logInfo ("Script version: " ++ version)]
  if isdir input_dataset st1 then
    match analyse_dataset os lib world auto_write input_dataset output_dir st1 with
    | .error e => .error e
    | .ok (st2, evs) => .ok ⟨MainOut.completed, auto_write, level, st2, ev_pre ++ evs⟩
  else
    .ok ⟨MainOut.parserError (path_str input_dataset ++ " not a directory"),
         auto_write, level, st1, ev_pre⟩

/-! ## Error-handling theorems -/

theorem safe_mkdir_error_inv (os : OSOracle) (dir : Path) (st : St) (e : OSErr)
    (h : safe_mkdir os dir st = .error e) :
    makedirs os dir st = .error e ∧ ¬ (e.errno = EEXIST ∧ isdir dir st = true) := by
  cases hm : makedirs os dir st with
  | ok r => simp [safe_mkdir, hm] at h
  | error exc =>
    by_cases hc : exc.errno = EEXIST ∧ isdir dir st = true
    · simp [safe_mkdir, hm, hc] at h
    · simp only [safe_mkdir, hm] at h
      rw [if_neg hc] at h
      have h2 : Except.error exc = Except.error e := h
      injection h2 with he
      subst he
      exact ⟨rfl, hc⟩

theorem item_output_path_error (os : OSOracle) (outd rel : Path) (st : St) (e : OSErr)
    (h : item_output_path os outd rel st = .error e) :
    safe_mkdir os (outd ++ rel) st = .error e := by
  cases hs : safe_mkdir os (outd ++ rel) st with
  | ok r =>
    obtain ⟨st1, evs⟩ := r
    simp only [item_output_path] at h
    rw [hs] at h
    simp at h
  | error e' =>
    simp only [item_output_path] at h
    rw [hs] at h
    simpa using h

theorem analyse_items_error (os : OSOracle) (lib : ImagingLib) (world : World)
    (aw : Bool) (ds : DataSet) (outd : Path) :
    ∀ (ids : List ℕ) (st : St) (e : OSErr),
      analyse_items os lib world aw ds outd ids st = .error e →
      ∃ (dir : Path) (st' : St), makedirs os dir st' = .error e ∧
        ¬ (e.errno = EEXIST ∧ isdir dir st' = true) := by
  intro ids
  induction ids with
  | nil => intro st e h; exact absurd h (by simp [analyse_items])
  | cons i ids ih =>
    intro st e h
    simp only [analyse_items] at h
    cases hio : item_output_path os outd (ds.item_relpath i) st with
    | error e' =>
      rw [hio] at h
      have h2 : Except.error e' = Except.error e := h
      injection h2 with he
      subst he
      obtain ⟨hm, hc⟩ := safe_mkdir_error_inv os (outd ++ ds.item_relpath i) st _
        (item_output_path_error os outd (ds.item_relpath i) st _ hio)
      exact ⟨outd ++ ds.item_relpath i, st, hm, hc⟩
    | ok r =>
      obtain ⟨specific_dir, st1, ev1⟩ := r
      simp only [hio] at h
      cases hr : analyse_items os lib world aw ds outd ids
          (analyse_file lib world aw (ds.item_content_abspath i) specific_dir st1).1 with
      | error e' =>
        rw [hr] at h
        have h2 : Except.error e' = Except.error e := h
        injection h2 with he
        subst he
        exact ih _ _ hr
      | ok r3 =>
        obtain ⟨st3, ev3⟩ := r3
        rw [hr] at h
        simp at h

theorem analyse_dataset_error (os : OSOracle) (lib : ImagingLib) (world : World)
    (aw : Bool) (ddir outd : Path) (st : St) (e : OSErr)
    (h : analyse_dataset os lib world aw ddir outd st = .error e) :
    ∃ (dir : Path) (st' : St), makedirs os dir st' = .error e ∧
      ¬ (e.errno = EEXIST ∧ isdir dir st' = true) := by
  simp only [analyse_dataset] at h
  cases hai : analyse_items os lib world aw (world.dataset ddir) outd
      (world.dataset ddir).identifiers st with
  | error e' =>
    rw [hai] at h
    have h2 : Except.error e' = Except.error e := h
    injection h2 with he
    subst he
    exact analyse_items_error os lib world aw (world.dataset ddir) outd _ st _ hai
  | ok r =>
    obtain ⟨st1, evs⟩ := r
    rw [hai] at h
    simp at h

theorem main_error_inv (os : OSOracle) (lib : ImagingLib) (world : World)
    (inp outd : Path) (debug : Bool) (st : St) (e : OSErr)
    (h : main os lib world inp outd debug st = .error e) :
    ∃ (dir : Path) (st' : St), makedirs os dir st' = .error e ∧
      ¬ (e.errno = EEXIST ∧ isdir dir st' = true) := by
  simp only [main] at h
  split at h <;> split at h
  · split at h
    · rename_i e' had
      have h2 : Except.error e' = Except.error e := h
      injection h2 with he
      subst he
      exact analyse_dataset_error os lib world debug inp outd _ _ had
    · simp at h
  · simp at h
  · split at h
    · rename_i e' had
      have h2 : Except.error e' = Except.error e := h
      injection h2 with he
      subst he
      exact analyse_dataset_error os lib world debug inp outd _ _ had
    · simp at h
  · simp at h

/-- Claim C4: the only failure-recovery logic is in `safe_mkdir`.  First,
`safe_mkdir` returns normally exactly when `os.makedirs` succeeded or
raised an `OSError` with errno `EEXIST` while the path is an existing
directory.  Second, every other `OSError` of `os.makedirs` is re-raised
unchanged.  Third, no other operation catches an exception: any error a
whole `main` run ends with is exactly an `OSError` that `os.makedirs`
raised somewhere and that did not meet the `EEXIST`-and-isdir condition,
propagated unchanged to the top. -/
theorem safe_mkdir_error_handling :
    (∀ (os : OSOracle) (dir : Path) (st : St),
      (∃ r, safe_mkdir os dir st = .ok r) ↔
        ((∃ r, makedirs os dir st = .ok r) ∨
         (∃ e, makedirs os dir st = .error e ∧ e.errno = EEXIST ∧ isdir dir st = true))) ∧
    (∀ (os : OSOracle) (dir : Path) (st : St) (e : OSErr),
      makedirs os dir st = .error e → ¬ (e.errno = EEXIST ∧ isdir dir st = true) →
      safe_mkdir os dir st = .error e) ∧
    (∀ (os : OSOracle) (lib : ImagingLib) (world : World) (inp outd : Path)
        (debug : Bool) (st : St) (e : OSErr),
      main os lib world inp outd debug st = .error e →
      ∃ (dir : Path) (st' : St), makedirs os dir st' = .error e ∧
        ¬ (e.errno = EEXIST ∧ isdir dir st' = true)) := by
  refine ⟨?_, ?_, ?_⟩
  · intro os dir st
    cases hm : makedirs os dir st with
    | ok r => simp [safe_mkdir, hm]
    | error exc =>
      by_cases hc : exc.errno = EEXIST ∧ isdir dir st = true
      · simp only [safe_mkdir, hm, if_pos hc]
        exact ⟨fun _ => Or.inr ⟨exc, rfl, hc⟩, fun _ => ⟨(st, []), rfl⟩⟩
      · simp only [safe_mkdir, hm, if_neg hc]
        constructor
        · intro ⟨r, hr⟩; exact absurd hr (by simp)
        · rintro (⟨r, hr⟩ | ⟨e, he, hee⟩)
          · exact absurd hr (by simp)
          · have hee2 : exc = e := Except.error.inj he
            subst hee2
            exact absurd hee hc
  · intro os dir st e hm hc
    simp only [safe_mkdir, hm, if_neg hc]
  · intro os lib world inp outd debug st e h
    exact main_error_inv os lib world inp outd debug st e h

/-- An oracle that makes every `os.makedirs` call raise errno 13
(a permission error). -/
def err_os : OSOracle := ⟨fun _ => some ⟨13⟩⟩

theorem safe_mkdir_error_handling_witness :
    safe_mkdir err_os ["d"] ⟨[], 0⟩ = .error ⟨13⟩ :=
  safe_mkdir_error_handling.2.1 err_os ["d"] ⟨[], 0⟩ ⟨13⟩ rfl (by decide)

/-! ## Dataset traversal (claim C2) -/

theorem safe_mkdir_ok_os (p : Path) (st : St) :
    safe_mkdir ok_os p st =
      .ok (if isdir p st then (st, ([] : List Ev))
           else (⟨p :: st.dirs, st.count⟩, [Ev.makedirsEv p])) := by
  by_cases hp : p ∈ st.dirs
  · simp [safe_mkdir, makedirs, ok_os, hp, isdir, EEXIST]
  · simp [safe_mkdir, makedirs, ok_os, hp, isdir]

/-- Claim C2, specification side.  Written from the claim's words, to be
compared with the code-side `analyse_dataset`: for every item identifier of
the dataset, in order, create the output subdirectory named by the item's
relpath property under the output directory if it does not already exist,
then analyse that item's file into it. -/
def analyse_dataset_spec (lib : ImagingLib) (world : World) (auto_write : Bool)
    (ds : DataSet) (output_dir : Path) : List ℕ → St → St × List Ev
  | [], st => (st, [])
  | i :: rest, st =>
    let dir := output_dir ++ ds.item_relpath i
    let r1 := if isdir dir st then (st, ([] : List Ev))
              else (⟨dir :: st.dirs, st.count⟩, [Ev.makedirsEv dir])
    let r2 := analyse_file lib world auto_write (ds.item_content_abspath i) dir r1.1
    let r3 := analyse_dataset_spec lib world auto_write ds output_dir rest r2.1
    (r3.1, r1.2 ++ r2.2 ++ r3.2)

theorem analyse_items_ok_os (lib : ImagingLib) (world : World) (aw : Bool)
    (ds : DataSet) (outd : Path) :
    ∀ (ids : List ℕ) (st : St),
      analyse_items ok_os lib world aw ds outd ids st =
        .ok (analyse_dataset_spec lib world aw ds outd ids st) := by
  intro ids
  induction ids with
  | nil => intro st; rfl
  | cons i ids ih =>
    intro st
    by_cases hd : isdir (outd ++ ds.item_relpath i) st = true
    · simp [analyse_items, analyse_dataset_spec, item_output_path, safe_mkdir_ok_os, hd, ih]
    · simp [analyse_items, analyse_dataset_spec, item_output_path, safe_mkdir_ok_os, hd, ih]

/-- Claim C2: `analyse_dataset` (no OS failure injected) logs the dataset
name and then, for every item identifier of the dataset in order, creates
the output subdirectory named by the item's relpath property under the
output directory when it does not already exist, and analyses that item's
file into that subdirectory — it returns exactly the run described by the
specification-side `analyse_dataset_spec`. -/
theorem analyse_dataset_per_item (lib : ImagingLib) (world : World) (auto_write : Bool)
    (dataset_dir output_dir : Path) (st : St) :
    analyse_dataset ok_os lib world auto_write dataset_dir output_dir st =
      .ok ((analyse_dataset_spec lib world auto_write (world.dataset dataset_dir) output_dir
              (world.dataset dataset_dir).identifiers st).1,
           Ev.logInfo ("Analysing items in dataset: " ++ (world.dataset dataset_dir).name) ::
             (analyse_dataset_spec lib world auto_write (world.dataset dataset_dir) output_dir
               (world.dataset dataset_dir).identifiers st).2) := by
  simp [analyse_dataset, analyse_items_ok_os]

/-! ## Annotation files written per series (claim C3) -/

/-- Whether an event is the write of an annotation file. -/
def is_write_bytes : Ev → Bool
  | Ev.writeBytes _ => true
  | _ => false

theorem filter_write_inter_events (dir : Path) :
    ∀ (c : ℕ) (ops : List Op),
      (inter_events dir c ops).1.filter is_write_bytes = [] := by
  intro c ops
  induction ops generalizing c with
  | nil => rfl
  | cons op ops ih =>
    by_cases ht : is_transform_op op = true
    · simp [inter_events, ht, List.filter_cons, is_write_bytes, ih]
    · simp [inter_events, ht, ih]

theorem analyse_series_writes (lib : ImagingLib) (col : Collection) (aw : Bool)
    (outd : Path) :
    ∀ (ss : List ℕ) (st : St),
      (analyse_series lib col aw outd ss st).2.filter is_write_bytes =
        ss.map (fun s => Ev.writeBytes (outd ++ [series_png_name s])) := by
  intro ss
  induction ss with
  | nil => intro st; rfl
  | cons s ss ih =>
    intro st
    cases aw with
    | false => simp [analyse_series, List.filter_cons, is_write_bytes, ih]
    | true =>
      simp [analyse_series, List.filter_append, List.filter_cons, is_write_bytes, ih,
            filter_write_inter_events]

theorem analyse_file_events_filter (lib : ImagingLib) (world : World) (aw : Bool)
    (fpath outd : Path) (st : St) :
    (analyse_file lib world aw fpath outd st).2.filter is_write_bytes =
      (world.load fpath).series.map (fun s => Ev.writeBytes (outd ++ [series_png_name s])) := by
  by_cases hd : isdir data_dir st = true <;>
    simp [analyse_file, get_microscopy_collection, mkdir, hd, List.filter_append,
          List.filter_cons, is_write_bytes, analyse_series_writes]

theorem zero_pad3_length (s : ℕ) (hs : s < 1000) : (zero_pad3 s).length = 3 := by
  have hle : (Nat.repr s).length ≤ 3 := Nat.repr_length s 3 (by norm_num) (by norm_num; exact hs)
  have ht : toString s = Nat.repr s := rfl
  unfold zero_pad3
  rw [ht]
  by_cases h : (Nat.repr s).length < 3
  · rw [if_pos h, String.length_append]
    have hmk : (String.mk (List.replicate (3 - (Nat.repr s).length) '0')).length =
        3 - (Nat.repr s).length := by
      rw [String.length_mk, List.length_replicate]
    rw [hmk]
    omega
  · rw [if_neg h]
    omega

/-- Claim C3: for every file analysed, the stream of annotation writes of
`analyse_file` is exactly one PNG per series `s` of the loaded collection,
named `series_` + `s` zero-padded to three digits + `_annotation.png`
inside the given output directory; hence the number of annotation files
written equals the number of series (and the padding is three digits wide
for every series number below 1000). -/
theorem analyse_file_png_per_series (lib : ImagingLib) (world : World) (auto_write : Bool)
    (fpath output_directory : Path) (st : St) :
    ((analyse_file lib world auto_write fpath output_directory st).2.filter is_write_bytes =
      (world.load fpath).series.map
        (fun s => Ev.writeBytes (output_directory ++ [series_png_name s]))) ∧
    ((analyse_file lib world auto_write fpath output_directory st).2.filter
        is_write_bytes).length = (world.load fpath).series.length ∧
    (∀ s : ℕ, s < 1000 → (zero_pad3 s).length = 3) := by
  refine ⟨analyse_file_events_filter lib world auto_write fpath output_directory st, ?_, ?_⟩
  · rw [analyse_file_events_filter]
    exact List.length_map _ _
  · intro s hs
    exact zero_pad3_length s hs

/-- A trivial concrete data world, used to exercise the theorems on closed
inputs. -/
def trivWorld : World where
  load := fun _ => ⟨[0], fun _ => [[1]]⟩
  dataset := fun _ => ⟨"ds", [0], fun _ => ["item0"], fun _ => ["rel0"]⟩

theorem analyse_file_png_per_series_witness : (zero_pad3 7).length = 3 :=
  (analyse_file_png_per_series trivLib trivWorld false ["f"] ["o"] ⟨[], 0⟩).2.2 7 (by decide)

/-! ## The argparse check of main (claim C8) -/

theorem main_not_dir (os : OSOracle) (lib : ImagingLib) (world : World)
    (inp outd : Path) (debug : Bool) (st : St)
    (h1 : isdir inp st = false) (h2 : inp ≠ outd) :
    main os lib world inp outd debug st = .ok
      ⟨MainOut.parserError (path_str inp ++ " not a directory"), debug,
       (if debug then DEBUG_LEVEL else INFO_LEVEL),
       (if isdir outd st then (st, ([] : List Ev)) else mkdir outd st).1,
       (if isdir outd st then (st, ([] : List Ev)) else mkdir outd st).2 ++
         [Ev.openLogFile (outd ++ ["audit.log"]),
          Ev.logInfo "Script name: analysis.py",
          Ev.logInfo ("Script version: " ++ version)]⟩ := by
  have hmem : inp ∉ st.dirs := by simpa [isdir] using h1
  have hst1 : isdir inp (if isdir outd st then (st, ([] : List Ev)) else mkdir outd st).1
      = false := by
    by_cases ho : isdir outd st = true
    · simpa [ho] using h1
    · have ho' : outd ∉ st.dirs := by simpa [isdir] using ho
      simp [ho', mkdir, isdir, List.mem_cons, hmem, h2]
  simp [main, hst1]

/-- Claim C8: if the input dataset argument is not an existing directory
(nor the output directory that the run may just have created), `main` ends
with the argparse error message "... not a directory" and analyses nothing
— no item is loaded, no annotation is written, no item subdirectory is
made.  The check happens only after the set-up: the events of this error
path are exactly the creation of the output directory (when it was absent)
followed by the opening of its `audit.log` logging file and the two start-up
log records. -/
theorem main_input_check_after_setup (os : OSOracle) (lib : ImagingLib) (world : World)
    (input_dataset output_dir : Path) (debug : Bool) (st : St)
    (h1 : isdir input_dataset st = false) (h2 : input_dataset ≠ output_dir) :
    ∃ r : MainResult, main os lib world input_dataset output_dir debug st = .ok r ∧
      r.outcome = MainOut.parserError (path_str input_dataset ++ " not a directory") ∧
      r.events =
        (if isdir output_dir st then ([] : List Ev) else [Ev.mkdirEv output_dir]) ++
        [Ev.openLogFile (output_dir ++ ["audit.log"]),
         Ev.logInfo "Script name: analysis.py",
         Ev.logInfo ("Script version: " ++ version)] ∧
      (∀ p, Ev.writeBytes p ∉ r.events ∧ Ev.loadCollection p ∉ r.events ∧
        Ev.makedirsEv p ∉ r.events) := by
  refine ⟨_, main_not_dir os lib world input_dataset output_dir debug st h1 h2, rfl, ?_, ?_⟩
  · by_cases ho : isdir output_dir st = true <;> simp [ho, mkdir]
  · intro p
    by_cases ho : isdir output_dir st = true <;> simp [ho, mkdir]

theorem main_input_check_after_setup_witness :
    ∃ r : MainResult, main ok_os trivLib trivWorld ["data"] ["out"] false ⟨[], 0⟩ = .ok r ∧
      r.outcome = MainOut.parserError (path_str ["data"] ++ " not a directory") ∧
      r.events =
        (if isdir ["out"] ⟨[], 0⟩ then ([] : List Ev) else [Ev.mkdirEv ["out"]]) ++
        [Ev.openLogFile (["out"] ++ ["audit.log"]),
         Ev.logInfo "Script name: analysis.py",
         Ev.logInfo ("Script version: " ++ version)] ∧
      (∀ p, Ev.writeBytes p ∉ r.events ∧ Ev.loadCollection p ∉ r.events ∧
        Ev.makedirsEv p ∉ r.events) :=
  main_input_check_after_setup ok_os trivLib trivWorld ["data"] ["out"] false ⟨[], 0⟩
    (by decide) (by decide)

/-! ## The hardcoded backend cache directory (claim C9) -/

/-- Claim C9, counterexample to its final clause: with working directory
`[]` and requested output directory `output`, the working directory differs
from the requested output directory, and yet the file-backend cache
directory `output/.backend` that `get_microscopy_collection` initialises
lies inside the requested output directory (`output` is a path prefix of
`output/.backend`). -/
theorem backend_dir_inside_output_example :
    ([] : Path) ≠ data_dir ∧
    data_dir <+: ([] : Path) ++ backend_dir ∧
    Ev.backendInit backend_dir ∈
      (get_microscopy_collection trivWorld ["input.lif"] ⟨[], 0⟩).2.2 := by
  refine ⟨by decide, ⟨[".backend"], rfl⟩, ?_⟩
  simp [get_microscopy_collection, mkdir, isdir, data_dir]

/-- Claim C9 (amended): `get_microscopy_collection` always uses the
hardcoded relative path `output/.backend` as the file-backend cache
directory — the only backend initialisation in its event trace is at
`backend_dir` — and it creates `output` when absent; the function receives
no output directory, so this location is independent of the user-supplied
one.  Resolved against the working directory the cache lives at
`cwd ++ output/.backend`; the program therefore writes outside the
requested output directory whenever that directory is not a path prefix of
`cwd ++ output/.backend` (rather than merely whenever it differs from the
working directory). -/
theorem backend_dir_independent_of_output (world : World) (input_file : Path) (st : St)
    (cwd outdir : Path) (h : ¬ outdir <+: cwd ++ backend_dir) :
    Ev.backendInit backend_dir ∈ (get_microscopy_collection world input_file st).2.2 ∧
    (∀ p, Ev.backendInit p ∈ (get_microscopy_collection world input_file st).2.2 →
      p = backend_dir) ∧
    (isdir data_dir st = false →
      Ev.mkdirEv data_dir ∈ (get_microscopy_collection world input_file st).2.2) ∧
    ¬ outdir <+: cwd ++ data_dir ∧ ¬ outdir <+: cwd ++ backend_dir := by
  refine ⟨?_, ?_, ?_, ?_, h⟩
  · by_cases hd : isdir data_dir st = true <;>
      simp [get_microscopy_collection, mkdir, hd]
  · intro p hp
    by_cases hd : isdir data_dir st = true <;>
      simp [get_microscopy_collection, mkdir, hd] at hp <;> simp [hp]
  · intro hd
    simp [get_microscopy_collection, mkdir, hd]
  · intro hp
    apply h
    have hsub : cwd ++ data_dir <+: cwd ++ backend_dir := by
      have heq : cwd ++ backend_dir = (cwd ++ data_dir) ++ [".backend"] := by
        simp [backend_dir, List.append_assoc]
      rw [heq]
      exact List.prefix_append _ _
    exact hp.trans hsub

theorem backend_dir_independent_of_output_witness :
    Ev.backendInit backend_dir ∈
      (get_microscopy_collection trivWorld ["f"] ⟨[], 0⟩).2.2 ∧
    (∀ p, Ev.backendInit p ∈ (get_microscopy_collection trivWorld ["f"] ⟨[], 0⟩).2.2 →
      p = backend_dir) ∧
    (isdir data_dir ⟨[], 0⟩ = false →
      Ev.mkdirEv data_dir ∈ (get_microscopy_collection trivWorld ["f"] ⟨[], 0⟩).2.2) ∧
    ¬ (["elsewhere"] : Path) <+: ["home"] ++ data_dir ∧
    ¬ (["elsewhere"] : Path) <+: ["home"] ++ backend_dir :=
  backend_dir_independent_of_output trivWorld ["f"] ⟨[], 0⟩ ["home"] ["elsewhere"]
    (by decide)

/-! ## Debug mode and intermediate images (claim C10) -/

/-- Whether an event is the write of an intermediate image by a wrapped
transformation. -/
def is_inter : Ev → Bool
  | Ev.interWrite _ => true
  | _ => false

theorem is_inter_mkdirEv (p : Path) : is_inter (Ev.mkdirEv p) = false := rfl

theorem is_inter_makedirsEv (p : Path) : is_inter (Ev.makedirsEv p) = false := rfl

theorem is_inter_backendInit (p : Path) : is_inter (Ev.backendInit p) = false := rfl

theorem is_inter_loadCollection (p : Path) : is_inter (Ev.loadCollection p) = false := rfl

theorem is_inter_logInfo (m : String) : is_inter (Ev.logInfo m) = false := rfl

theorem is_inter_openLogFile (p : Path) : is_inter (Ev.openLogFile p) = false := rfl

theorem is_inter_writeBytes (p : Path) : is_inter (Ev.writeBytes p) = false := rfl

theorem is_inter_interWrite (p : Path) : is_inter (Ev.interWrite p) = true := rfl

theorem inter_events_mem (dir : Path) :
    ∀ (c : ℕ) (ops : List Op) (ev : Ev), ev ∈ (inter_events dir c ops).1 →
      ∃ (k : ℕ) (nm : String), ev = Ev.interWrite (dir ++ [counter_fmt k ++ nm]) := by
  intro c ops
  induction ops generalizing c with
  | nil => intro ev hev; simp [inter_events] at hev
  | cons op ops ih =>
    intro ev hev
    by_cases ht : is_transform_op op = true
    · simp only [inter_events, if_pos ht, List.mem_cons] at hev
      rcases hev with hev | hev
      · refine ⟨c, op_name op ++ ".png", ?_⟩
        rw [hev, String.append_assoc]
      · exact ih (c + 1) ev hev
    · simp only [inter_events, if_neg ht] at hev
      exact ih c ev hev

theorem inter_events_filter_not (dir : Path) :
    ∀ (c : ℕ) (ops : List Op),
      (inter_events dir c ops).1.filter (fun e => !(is_inter e)) = [] := by
  intro c ops
  rw [List.filter_eq_nil_iff]
  intro ev hev
  obtain ⟨k, nm, rfl⟩ := inter_events_mem dir c ops ev hev
  simp [is_inter]

theorem analyse_series_false (lib : ImagingLib) (col : Collection) (outd : Path) :
    ∀ (ss : List ℕ) (st : St),
      analyse_series lib col false outd ss st =
        (st, ss.map (fun s => Ev.writeBytes (outd ++ [series_png_name s]))) := by
  intro ss
  induction ss with
  | nil => intro st; rfl
  | cons s ss ih => intro st; simp [analyse_series, ih]

theorem analyse_series_dirs (lib : ImagingLib) (col : Collection) (aw : Bool)
    (outd : Path) :
    ∀ (ss : List ℕ) (st : St), (analyse_series lib col aw outd ss st).1.dirs = st.dirs := by
  intro ss
  induction ss with
  | nil => intro st; rfl
  | cons s ss ih => intro st; simp [analyse_series, ih]

theorem analyse_series_filter_not_inter (lib : ImagingLib) (col : Collection)
    (outd : Path) :
    ∀ (ss : List ℕ) (st : St),
      (analyse_series lib col true outd ss st).2.filter (fun e => !(is_inter e)) =
        ss.map (fun s => Ev.writeBytes (outd ++ [series_png_name s])) := by
  intro ss
  induction ss with
  | nil => intro st; rfl
  | cons s ss ih =>
    intro st
    simp [analyse_series, List.filter_append, List.filter_cons, is_inter_writeBytes,
          ih, inter_events_filter_not]

theorem analyse_series_inter_shape (lib : ImagingLib) (col : Collection) (aw : Bool)
    (outd : Path) :
    ∀ (ss : List ℕ) (st : St) (p : Path),
      Ev.interWrite p ∈ (analyse_series lib col aw outd ss st).2 →
      ∃ (dd : Path) (k : ℕ) (nm : String), p = dd ++ [counter_fmt k ++ nm] := by
  intro ss
  induction ss with
  | nil => intro st p hp; simp [analyse_series] at hp
  | cons s ss ih =>
    intro st p hp
    cases aw with
    | false =>
      rw [analyse_series_false] at hp
      simp at hp
    | true =>
      simp only [analyse_series, List.mem_append, List.mem_cons] at hp
      rcases hp with (hp | hp) | hp
      · obtain ⟨k, nm, hev⟩ := inter_events_mem outd st.count
          (analyse_image lib (col.image s)).2 _ hp
        exact ⟨outd, k, nm, Ev.interWrite.inj hev⟩
      · rcases hp with hp | hp
        · exact absurd hp (by simp)
        · simp at hp
      · exact ih _ p hp

theorem getcol_eq (world : World) (f : Path) (st : St) :
    get_microscopy_collection world f st =
      (world.load f,
       ⟨(if isdir data_dir st then st.dirs else data_dir :: st.dirs), st.count⟩,
       (if isdir data_dir st then ([] : List Ev) else [Ev.mkdirEv data_dir]) ++
         [Ev.backendInit backend_dir, Ev.loadCollection f]) := by
  by_cases hd : isdir data_dir st = true <;>
    simp [get_microscopy_collection, mkdir, hd]

theorem analyse_file_dirs (lib : ImagingLib) (world : World) (aw : Bool)
    (f d : Path) (st : St) :
    (analyse_file lib world aw f d st).1.dirs =
      (if isdir data_dir st then st.dirs else data_dir :: st.dirs) := by
  simp [analyse_file, getcol_eq, analyse_series_dirs]

theorem filter_inter_map_wb (outd : Path) (ss : List ℕ) :
    (ss.map (fun s => Ev.writeBytes (outd ++ [series_png_name s]))).filter is_inter
      = [] := by
  induction ss with
  | nil => rfl
  | cons s ss ih => simp [List.filter_cons, is_inter_writeBytes, ih]

theorem analyse_file_true_filter (lib : ImagingLib) (world : World) (f d : Path)
    (stT stF : St) (hd : stT.dirs = stF.dirs) :
    (analyse_file lib world true f d stT).2.filter (fun e => !(is_inter e)) =
      (analyse_file lib world false f d stF).2 := by
  have hisd : isdir data_dir stT = isdir data_dir stF := by simp [isdir, hd]
  by_cases hc : isdir data_dir stF = true <;>
    simp [analyse_file, getcol_eq, analyse_series_false, hisd, hc, List.filter_append,
          List.filter_cons, is_inter_mkdirEv, is_inter_makedirsEv, is_inter_backendInit, is_inter_loadCollection, is_inter_logInfo, is_inter_openLogFile, is_inter_writeBytes, is_inter_interWrite,
          analyse_series_filter_not_inter]

theorem analyse_file_false_no_inter (lib : ImagingLib) (world : World)
    (f d : Path) (st : St) :
    (analyse_file lib world false f d st).2.filter is_inter = [] := by
  by_cases hc : isdir data_dir st = true <;>
    simp [analyse_file, getcol_eq, analyse_series_false, hc, List.filter_append,
          List.filter_cons, is_inter_mkdirEv, is_inter_makedirsEv, is_inter_backendInit, is_inter_loadCollection, is_inter_logInfo, is_inter_openLogFile, is_inter_writeBytes, is_inter_interWrite, filter_inter_map_wb]

theorem analyse_file_inter_shape (lib : ImagingLib) (world : World) (aw : Bool)
    (f d : Path) (st : St) (p : Path)
    (hp : Ev.interWrite p ∈ (analyse_file lib world aw f d st).2) :
    ∃ (dd : Path) (k : ℕ) (nm : String), p = dd ++ [counter_fmt k ++ nm] := by
  by_cases hc : isdir data_dir st = true
  · simp [analyse_file, getcol_eq, hc] at hp
    exact analyse_series_inter_shape lib (world.load f) aw d (world.load f).series _ p hp
  · simp [analyse_file, getcol_eq, hc] at hp
    exact analyse_series_inter_shape lib (world.load f) aw d (world.load f).series _ p hp

theorem analyse_items_relation_step (lib : ImagingLib) (world : World) (ds : DataSet)
    (outd : Path) (i : ℕ) (ids : List ℕ)
    (ih : ∀ (stT stF : St), stT.dirs = stF.dirs →
      ∃ (rT rF : St × List Ev),
        analyse_items ok_os lib world true ds outd ids stT = .ok rT ∧
        analyse_items ok_os lib world false ds outd ids stF = .ok rF ∧
        rT.1.dirs = rF.1.dirs ∧
        rT.2.filter (fun e => !(is_inter e)) = rF.2 ∧
        rF.2.filter is_inter = [] ∧
        (∀ p, Ev.interWrite p ∈ rT.2 →
          ∃ (dd : Path) (k : ℕ) (nm : String), p = dd ++ [counter_fmt k ++ nm]))
    (stT stF stT1 stF1 : St) (evs1 : List Ev)
    (hev1 : evs1.filter is_inter = [] ∧ evs1.filter (fun e => !(is_inter e)) = evs1 ∧
      ∀ p, Ev.interWrite p ∉ evs1)
    (hd1 : stT1.dirs = stF1.dirs)
    (hioT : item_output_path ok_os outd (ds.item_relpath i) stT =
      .ok (outd ++ ds.item_relpath i, stT1, evs1))
    (hioF : item_output_path ok_os outd (ds.item_relpath i) stF =
      .ok (outd ++ ds.item_relpath i, stF1, evs1)) :
    ∃ (rT rF : St × List Ev),
      analyse_items ok_os lib world true ds outd (i :: ids) stT = .ok rT ∧
      analyse_items ok_os lib world false ds outd (i :: ids) stF = .ok rF ∧
      rT.1.dirs = rF.1.dirs ∧
      rT.2.filter (fun e => !(is_inter e)) = rF.2 ∧
      rF.2.filter is_inter = [] ∧
      (∀ p, Ev.interWrite p ∈ rT.2 →
        ∃ (dd : Path) (k : ℕ) (nm : String), p = dd ++ [counter_fmt k ++ nm]) := by
  have hfd : (analyse_file lib world true (ds.item_content_abspath i)
        (outd ++ ds.item_relpath i) stT1).1.dirs =
      (analyse_file lib world false (ds.item_content_abspath i)
        (outd ++ ds.item_relpath i) stF1).1.dirs := by
    rw [analyse_file_dirs, analyse_file_dirs]
    have hisd : isdir data_dir stT1 = isdir data_dir stF1 := by simp [isdir, hd1]
    rw [hisd, hd1]
  obtain ⟨⟨stT2, evT2⟩, ⟨stF2, evF2⟩, hT', hF', hdirs', hfilt', hnoint', hshape'⟩ :=
    ih _ _ hfd
  refine ⟨(stT2, evs1 ++ (analyse_file lib world true (ds.item_content_abspath i)
            (outd ++ ds.item_relpath i) stT1).2 ++ evT2),
          (stF2, evs1 ++ (analyse_file lib world false (ds.item_content_abspath i)
            (outd ++ ds.item_relpath i) stF1).2 ++ evF2),
          ?_, ?_, hdirs', ?_, ?_, ?_⟩
  · simp [analyse_items, hioT, hT']
  · simp [analyse_items, hioF, hF']
  · simp [List.filter_append, hfilt', hev1.2.1,
          analyse_file_true_filter lib world _ _ stT1 stF1 hd1]
  · simp [List.filter_append, hnoint', hev1.1, analyse_file_false_no_inter]
  · intro p hp
    simp only [List.mem_append] at hp
    rcases hp with (hp | hp) | hp
    · exact absurd hp (hev1.2.2 p)
    · exact analyse_file_inter_shape lib world true _ _ stT1 p hp
    · exact hshape' p hp

theorem analyse_items_relation (lib : ImagingLib) (world : World) (ds : DataSet)
    (outd : Path) :
    ∀ (ids : List ℕ) (stT stF : St), stT.dirs = stF.dirs →
      ∃ (rT rF : St × List Ev),
        analyse_items ok_os lib world true ds outd ids stT = .ok rT ∧
        analyse_items ok_os lib world false ds outd ids stF = .ok rF ∧
        rT.1.dirs = rF.1.dirs ∧
        rT.2.filter (fun e => !(is_inter e)) = rF.2 ∧
        rF.2.filter is_inter = [] ∧
        (∀ p, Ev.interWrite p ∈ rT.2 →
          ∃ (dd : Path) (k : ℕ) (nm : String), p = dd ++ [counter_fmt k ++ nm]) := by
  intro ids
  induction ids with
  | nil =>
    intro stT stF h
    exact ⟨(stT, []), (stF, []), rfl, rfl, h, rfl, rfl, by intro p hp; simp at hp⟩
  | cons i ids ih =>
    intro stT stF h
    have hisd : isdir (outd ++ ds.item_relpath i) stT =
        isdir (outd ++ ds.item_relpath i) stF := by
      simp [isdir, h]
    by_cases hc : isdir (outd ++ ds.item_relpath i) stF = true
    · have hioT : item_output_path ok_os outd (ds.item_relpath i) stT =
          .ok (outd ++ ds.item_relpath i, stT, ([] : List Ev)) := by
        simp [item_output_path, safe_mkdir_ok_os, hisd, hc]
      have hioF : item_output_path ok_os outd (ds.item_relpath i) stF =
          .ok (outd ++ ds.item_relpath i, stF, ([] : List Ev)) := by
        simp [item_output_path, safe_mkdir_ok_os, hc]
      exact analyse_items_relation_step lib world ds outd i ids ih stT stF stT stF []
        ⟨rfl, rfl, by intro p; simp⟩ h hioT hioF
    · have hioT : item_output_path ok_os outd (ds.item_relpath i) stT =
          .ok (outd ++ ds.item_relpath i,
               ⟨(outd ++ ds.item_relpath i) :: stT.dirs, stT.count⟩,
               [Ev.makedirsEv (outd ++ ds.item_relpath i)]) := by
        simp [item_output_path, safe_mkdir_ok_os, hisd, hc]
      have hioF : item_output_path ok_os outd (ds.item_relpath i) stF =
          .ok (outd ++ ds.item_relpath i,
               ⟨(outd ++ ds.item_relpath i) :: stF.dirs, stF.count⟩,
               [Ev.makedirsEv (outd ++ ds.item_relpath i)]) := by
        simp [item_output_path, safe_mkdir_ok_os, hc]
      exact analyse_items_relation_step lib world ds outd i ids ih stT stF
        ⟨(outd ++ ds.item_relpath i) :: stT.dirs, stT.count⟩
        ⟨(outd ++ ds.item_relpath i) :: stF.dirs, stF.count⟩
        [Ev.makedirsEv (outd ++ ds.item_relpath i)]
        ⟨by simp [List.filter_cons, is_inter], by simp [List.filter_cons, is_inter],
         by intro p; simp⟩
        (by simp [h]) hioT hioF

theorem analyse_dataset_relation (lib : ImagingLib) (world : World)
    (ddir outd : Path) (stT stF : St) (h : stT.dirs = stF.dirs) :
    ∃ (rT rF : St × List Ev),
      analyse_dataset ok_os lib world true ddir outd stT = .ok rT ∧
      analyse_dataset ok_os lib world false ddir outd stF = .ok rF ∧
      rT.1.dirs = rF.1.dirs ∧
      rT.2.filter (fun e => !(is_inter e)) = rF.2 ∧
      rF.2.filter is_inter = [] ∧
      (∀ p, Ev.interWrite p ∈ rT.2 →
        ∃ (dd : Path) (k : ℕ) (nm : String), p = dd ++ [counter_fmt k ++ nm]) := by
  obtain ⟨⟨stT2, evT2⟩, ⟨stF2, evF2⟩, hT', hF', hdirs', hfilt', hnoint', hshape'⟩ :=
    analyse_items_relation lib world (world.dataset ddir) outd
      (world.dataset ddir).identifiers stT stF h
  refine ⟨(stT2, Ev.logInfo ("Analysing items in dataset: " ++ (world.dataset ddir).name)
            :: evT2),
          (stF2, Ev.logInfo ("Analysing items in dataset: " ++ (world.dataset ddir).name)
            :: evF2),
          ?_, ?_, hdirs', ?_, ?_, ?_⟩
  · simp [analyse_dataset, hT']
  · simp [analyse_dataset, hF']
  · simp [List.filter_cons, is_inter_logInfo, hfilt']
  · simp [List.filter_cons, is_inter_logInfo, hnoint']
  · intro p hp
    simp only [List.mem_cons] at hp
    rcases hp with hp | hp
    · exact absurd hp (by simp)
    · exact hshape' p hp

/-- Claim C10: unless the debug flag is given, `main` switches `AutoWrite.on`
off (so no intermediate images from the transformation steps are written)
and logs at level INFO; with the debug flag, the transformations write
intermediate images — each named with the `AutoName.prefix_format` step
counter prefix — and the level is DEBUG.  The two runs produce the same
events apart from exactly these intermediate writes: filtering them out of
the debug run yields the non-debug run, and the non-debug run contains
none. -/
theorem main_debug_only_adds_intermediates (lib : ImagingLib) (world : World)
    (inp out : Path) (st : St) :
    ∃ rT rF : MainResult,
      main ok_os lib world inp out true st = .ok rT ∧
      main ok_os lib world inp out false st = .ok rF ∧
      rT.auto_write_on = true ∧ rT.log_level = DEBUG_LEVEL ∧
      rF.auto_write_on = false ∧ rF.log_level = INFO_LEVEL ∧
      rT.events.filter (fun e => !(is_inter e)) = rF.events ∧
      rF.events.filter is_inter = [] ∧
      (∀ p, Ev.interWrite p ∈ rT.events →
        ∃ (dd : Path) (k : ℕ) (nm : String), p = dd ++ [counter_fmt k ++ nm]) := by
  by_cases hinp : isdir inp (if isdir out st then (st, ([] : List Ev))
      else mkdir out st).1 = true
  · obtain ⟨⟨stT2, evT2⟩, ⟨stF2, evF2⟩, hT', hF', hdirs', hfilt', hnoint', hshape'⟩ :=
      analyse_dataset_relation lib world inp out
        (if isdir out st then (st, ([] : List Ev)) else mkdir out st).1
        (if isdir out st then (st, ([] : List Ev)) else mkdir out st).1 rfl
    refine ⟨⟨MainOut.completed, true, DEBUG_LEVEL, stT2,
             ((if isdir out st then (st, ([] : List Ev)) else mkdir out st).2 ++
              [Ev.openLogFile (out ++ ["audit.log"]),
               Ev.logInfo "Script name: analysis.py",
               Ev.logInfo ("Script version: " ++ version)]) ++ evT2⟩,
            ⟨MainOut.completed, false, INFO_LEVEL, stF2,
             ((if isdir out st then (st, ([] : List Ev)) else mkdir out st).2 ++
              [Ev.openLogFile (out ++ ["audit.log"]),
               Ev.logInfo "Script name: analysis.py",
               Ev.logInfo ("Script version: " ++ version)]) ++ evF2⟩,
            ?_, ?_, rfl, rfl, rfl, rfl, ?_, ?_, ?_⟩
    · simp [main, hinp, hT']
    · simp [main, hinp, hF']
    · by_cases ho : isdir out st = true <;>
        simp [ho, mkdir, List.filter_append, List.filter_cons, is_inter_mkdirEv, is_inter_makedirsEv, is_inter_backendInit, is_inter_loadCollection, is_inter_logInfo, is_inter_openLogFile, is_inter_writeBytes, is_inter_interWrite, hfilt']
    · by_cases ho : isdir out st = true <;>
        simp [ho, mkdir, List.filter_append, List.filter_cons, is_inter_mkdirEv, is_inter_makedirsEv, is_inter_backendInit, is_inter_loadCollection, is_inter_logInfo, is_inter_openLogFile, is_inter_writeBytes, is_inter_interWrite, hnoint']
    · intro p hp
      by_cases ho : isdir out st = true <;> simp [ho, mkdir] at hp <;>
        exact hshape' p hp
  · refine ⟨⟨MainOut.parserError (path_str inp ++ " not a directory"), true, DEBUG_LEVEL,
             (if isdir out st then (st, ([] : List Ev)) else mkdir out st).1,
             (if isdir out st then (st, ([] : List Ev)) else mkdir out st).2 ++
              [Ev.openLogFile (out ++ ["audit.log"]),
               Ev.logInfo "Script name: analysis.py",
               Ev.logInfo ("Script version: " ++ version)]⟩,
            ⟨MainOut.parserError (path_str inp ++ " not a directory"), false, INFO_LEVEL,
             (if isdir out st then (st, ([] : List Ev)) else mkdir out st).1,
             (if isdir out st then (st, ([] : List Ev)) else mkdir out st).2 ++
              [Ev.openLogFile (out ++ ["audit.log"]),
               Ev.logInfo "Script name: analysis.py",
               Ev.logInfo ("Script version: " ++ version)]⟩,
            ?_, ?_, rfl, rfl, rfl, rfl, ?_, ?_, ?_⟩
    · simp [main, hinp]
    · simp [main, hinp]
    · by_cases ho : isdir out st = true <;>
        simp [ho, mkdir, List.filter_append, List.filter_cons, is_inter_mkdirEv, is_inter_makedirsEv, is_inter_backendInit, is_inter_loadCollection, is_inter_logInfo, is_inter_openLogFile, is_inter_writeBytes, is_inter_interWrite]
    · by_cases ho : isdir out st = true <;>
        simp [ho, mkdir, List.filter_append, List.filter_cons, is_inter_mkdirEv, is_inter_makedirsEv, is_inter_backendInit, is_inter_loadCollection, is_inter_logInfo, is_inter_openLogFile, is_inter_writeBytes, is_inter_interWrite]
    · intro p hp
      by_cases ho : isdir out st = true <;> simp [ho, mkdir] at hp

end LeafLesion
